import Mathlib

/-!
Formal model of the GY-MLX90640 thermal-camera sketches
(sketch_feb27a.ino: ESP32 WiFi/WebSocket variant; sketch_feb23a.ino:
ESP8266 standalone variant and ESP8266 WiFi variant).

Modelling conventions:
- Bytes are natural numbers; storage into a uint8_t is modelled by
  reduction mod 256 at the point of use.
- The C float temperatures are modelled as rationals.  Every value the
  code computes has the form r / 100 with r a 16-bit signed integer;
  on that domain the float comparisons t > -40.0 and t < 300.0 agree
  exactly with the rational comparisons (the endpoints -40 and 300 are
  exactly representable and the quantisation step 0.01 dwarfs the
  rounding error), so the branch structure is preserved.
- The serial byte source during one poll cycle is modelled by two lists:
  the bytes already buffered when the cycle starts (drained and
  discarded by the code) and the bytes that arrive before the relevant
  deadline expires.
- millis() arithmetic is on uint32; within one session the differences
  the code computes equal truncated Nat subtraction as long as the
  clock is monotone, which is how they are modelled.
-/

set_option maxRecDepth 8000

namespace MLX90640

/-! ### Frame synchronisation

The sketches search for the header 5A 5A 02 06 with

    if (Serial.available() >= 4) {
      if (Serial.read() == 0x5A && Serial.read() == 0x5A &&
          Serial.read() == 0x02 && Serial.read() == 0x06) { ... }
    }

Due to short-circuit evaluation, a mismatch at position k consumes
exactly the k bytes read so far (the mismatching byte included) and the
next iteration starts at the following unread byte.  findHeader models
the whole search when every byte of the list is available before the
deadline: it returns the bytes after the matched header, or none when
the search runs off the end (fewer than 4 bytes left never enter the
body, so the loop then spins until the deadline). -/

def findHeader : List Nat → Option (List Nat)
  | b0 :: b1 :: b2 :: b3 :: rest =>
    if b0 = 0x5A then
      if b1 = 0x5A then
        if b2 = 0x02 then
          if b3 = 0x06 then some rest
          else findHeader rest
        else findHeader (b3 :: rest)
      else findHeader (b2 :: b3 :: rest)
    else findHeader (b1 :: b2 :: b3 :: rest)
  | _ => none

/-! ### Decoding (sketch_feb27a.ino decodeFrame)

    int16_t raw = (rawData[i * 2 + 1] << 8) | rawData[i * 2];
    float t = raw / 100.0;
    if (t > -40.0 && t < 300.0) frame[i] = t;
-/

/-- Two bytes assembled as (hi << 8) | lo and narrowed to int16_t
(twos-complement wrap). -/
def toInt16 (lo hi : Nat) : Int :=
  let u := (hi % 256) * 256 + lo % 256
  if u < 32768 then (u : Int) else (u : Int) - 65536

/-- The signed 16-bit raw value of pixel i in a 1540-byte frame buffer. -/
def pixelRaw (rawData : List Nat) (i : Nat) : Int :=
  toInt16 (rawData.getD (i * 2) 0) (rawData.getD (i * 2 + 1) 0)

/-- Pixel temperature in Celsius: raw / 100. -/
def pixelTemp (rawData : List Nat) (i : Nat) : ℚ :=
  (pixelRaw rawData i : ℚ) / 100

/-- One iteration of the decode loop: cell i is overwritten with the
new value when it lies strictly inside (-40, 300), otherwise kept. -/
def decodeStep (rawData : List Nat) (frame : Fin 768 → ℚ) (i : Fin 768) :
    Fin 768 → ℚ :=
  Function.update frame i
    (let t := pixelTemp rawData i.val
     if -40 < t ∧ t < 300 then t else frame i)

/-- decodeFrame of sketch_feb27a.ino: the loop over i = 0..767. -/
def decodeFrame (rawData : List Nat) (frame : Fin 768 → ℚ) : Fin 768 → ℚ :=
  (List.finRange 768).foldl (decodeStep rawData) frame

/-- setup() of the WiFi variants ends with: for(int i=0;i<768;i++) frame[i]=0.0; -/
def initFrame : Fin 768 → ℚ := fun _ => 0

/-! ### decodeAndShow (sketch_feb23a.ino, standalone variant)

Same per-pixel loop, additionally tracking minT/maxT inside the
in-range branch, and afterwards decoding the ambient temperature

    int16_t taRaw = (rawData[1537] << 8) | rawData[1536];
    float ta = taRaw / 100.0;

with no range check. -/

structure ShowResult where
  frame : Fin 768 → ℚ
  minT : ℚ
  maxT : ℚ
  ta : ℚ

/-- One iteration of the decodeAndShow loop on the state
(frame, minT, maxT). -/
def decodeShowStep (rawData : List Nat) (s : (Fin 768 → ℚ) × ℚ × ℚ)
    (i : Fin 768) : (Fin 768 → ℚ) × ℚ × ℚ :=
  let t := pixelTemp rawData i.val
  if -40 < t ∧ t < 300 then
    (Function.update s.1 i t,
     if t < s.2.1 then t else s.2.1,
     if s.2.2 < t then t else s.2.2)
  else s

/-- decodeAndShow of sketch_feb23a.ino (printing and the ASCII map are
presentation, outside the decoded data). -/
def decodeAndShow (rawData : List Nat) (frame : Fin 768 → ℚ) : ShowResult :=
  let s := (List.finRange 768).foldl (decodeShowStep rawData) (frame, 100, -100)
  { frame := s.1
    minT := s.2.1
    maxT := s.2.2
    ta := (toInt16 (rawData.getD 1536 0) (rawData.getD 1537 0) : ℚ) / 100 }

/-! ### One poll cycle (requestSensorData of the WiFi variants)

    while(Serial.available() > 0) Serial.read();        // drain
    byte askData[] = {0xA5, 0x35, 0x01, 0xDB};
    Serial.write(askData, 4);
    ... header search under the deadline ...
    if (headerFound) {
      int received = Serial.readBytes((char*)rawData, 1540);
      if (received == 1540) { decodeFrame(); webSocket.broadcastBIN(...); }
      else { /- short-read report -/ }
    }

The byte source is modelled as (buffered, arrivals): buffered holds the
stale bytes present when the cycle starts, all drained and discarded;
arrivals holds the bytes delivered before the relevant deadline stalls
the cycle.  broadcastBIN sends the serialised frame, one binary message
per currently connected client; the float32 little-endian memory layout
of the C float array is abstracted as a per-cell serialiser ser that
the publishing theorems constrain to 4 bytes per cell. -/

def askData : List Nat := [0xA5, 0x35, 0x01, 0xDB]

inductive PollOutcome
  | success
  | headerTimeout
  | shortRead (n : Nat)
  deriving DecidableEq

structure CycleResult where
  written : List Nat
  outcome : PollOutcome
  frame : Fin 768 → ℚ
  sent : List (List Nat)

/-- Serialisation of the 768-cell grid in index order (row-major
32 by 24), one cell after the other. -/
def serializeGrid (ser : ℚ → List Nat) (frame : Fin 768 → ℚ) : List Nat :=
  (List.finRange 768).flatMap (fun i => ser (frame i))

/-- requestSensorData of sketch_feb27a.ino (and the ESP8266 WiFi
variant): drain, write the query, synchronise, read 1540 bytes, decode
and broadcast.  received models the return value of readBytes: all of
the remaining arrivals, capped at the 1540 requested. -/
def requestSensorData (ser : ℚ → List Nat) (buffered arrivals : List Nat)
    (frame : Fin 768 → ℚ) (subs : List Nat) : CycleResult :=
  match findHeader arrivals with
  | none => ⟨askData, .headerTimeout, frame, []⟩
  | some rest =>
    let received := min rest.length 1540
    if received = 1540 then
      let frame1 := decodeFrame (rest.take 1540) frame
      ⟨askData, .success, frame1, subs.map (fun _ => serializeGrid ser frame1)⟩
    else
      ⟨askData, .shortRead received, frame, []⟩

/-! ### Poll scheduler -/

/-- loop() of sketch_feb27a.ino polls under
  if (millis() - lastFetch > 1000) { lastFetch = millis(); requestSensorData(); } -/
def pollInterval_feb27a : Nat := 1000

/-- The standalone variant of sketch_feb23a.ino ends every loop()
iteration with delay(5000). -/
def standaloneDelay_feb23a : Nat := 5000

/-- One iteration of loop() of sketch_feb27a.ino, returning the new
lastFetch and, when a cycle was triggered, its result.  now and
lastFetch are millis() values (monotone clock, so the uint32 difference
is the truncated Nat difference). -/
def loopStep (ser : ℚ → List Nat) (lastFetch now : Nat)
    (buffered arrivals : List Nat) (frame : Fin 768 → ℚ) (subs : List Nat) :
    Nat × ((Fin 768 → ℚ) × Option CycleResult) :=
  if pollInterval_feb27a < now - lastFetch then
    let R := requestSensorData ser buffered arrivals frame subs
    (now, R.frame, some R)
  else
    (lastFetch, frame, none)

/-- One iteration of loop() of the standalone sketch_feb23a.ino
variant: it runs a full cycle unconditionally (drain, query, sync,
read, decode or error report) and then delays 5000 ms; the component
after the cycle result is that delay. -/
def standaloneLoopIter (buffered arrivals : List Nat)
    (frame : Fin 768 → ℚ) : ((Fin 768 → ℚ) × PollOutcome) × Nat :=
  (match findHeader arrivals with
   | none => (frame, .headerTimeout)
   | some rest =>
     let received := min rest.length 1540
     if received = 1540 then
       ((decodeAndShow (rest.take 1540) frame).frame, .success)
     else
       (frame, .shortRead received),
   standaloneDelay_feb23a)

/-! ### The synchronisation loop with its deadline

    unsigned long startWait = millis();
    while (millis() - startWait < 500) {
      if (Serial.available() >= 4) { ... reads ... }
    }

syncLoop makes the clock explicit: millisAt n is the millis() reading
at the n-th evaluation of the while condition, arrive n the bytes that
became available since the previous iteration.  The fuel argument only
bounds the recursion; the deadline theorems show that any fuel past the
first clock reading at or beyond the deadline is enough, so outOfFuel
is never the observed result. -/

def syncDeadline_feb27a : Nat := 500
def syncDeadline_feb23a : Nat := 1000

inductive SyncResult
  | matched (rest : List Nat)
  | headerTimeout
  | outOfFuel
  deriving DecidableEq

/-- The loop body once at least 4 bytes are available: the
short-circuited comparison chain, returning whether the header matched
and the bytes left unconsumed. -/
def syncStep : List Nat → Bool × List Nat
  | b0 :: b1 :: b2 :: b3 :: rest =>
    if b0 = 0x5A then
      if b1 = 0x5A then
        if b2 = 0x02 then
          if b3 = 0x06 then (true, rest)
          else (false, rest)
        else (false, b3 :: rest)
      else (false, b2 :: b3 :: rest)
    else (false, b1 :: b2 :: b3 :: rest)
  | l => (false, l)

def syncLoop (millisAt : Nat → Nat) (arrive : Nat → List Nat)
    (start deadline : Nat) : Nat → Nat → List Nat → SyncResult
  | 0, _, _ => .outOfFuel
  | fuel + 1, n, buf =>
    if millisAt n - start < deadline then
      let buf1 := buf ++ arrive n
      if 4 ≤ buf1.length then
        match syncStep buf1 with
        | (true, rest) => .matched rest
        | (false, rest) => syncLoop millisAt arrive start deadline fuel (n + 1) rest
      else
        syncLoop millisAt arrive start deadline fuel (n + 1) buf1
    else .headerTimeout

/-! ### Helper lemmas: the decode loop acts cell-wise -/

/-- The value the decode loop would store into cell i: the new reading
when strictly inside (-40, 300), the previous cell value otherwise. -/
def cellUpdate (rawData : List Nat) (frame : Fin 768 → ℚ) (i : Fin 768) : ℚ :=
  let t := pixelTemp rawData i.val
  if -40 < t ∧ t < 300 then t else frame i

theorem foldl_decodeStep_apply (rawData : List Nat) (L : List (Fin 768))
    (frame : Fin 768 → ℚ) (j : Fin 768) :
    (L.foldl (decodeStep rawData) frame) j =
      if j ∈ L then cellUpdate rawData frame j else frame j := by
  induction L generalizing frame with
  | nil => simp
  | cons i L ih =>
    rw [List.foldl_cons, ih]
    by_cases hjL : j ∈ L
    · simp only [hjL, if_true, List.mem_cons, or_true, if_true]
      by_cases hji : j = i
      · subst hji
        by_cases hc : -40 < pixelTemp rawData j.val ∧ pixelTemp rawData j.val < 300
        · simp [cellUpdate, decodeStep, Function.update_apply, hc]
        · simp [cellUpdate, decodeStep, Function.update_apply, hc]
      · simp [cellUpdate, decodeStep, Function.update_apply, hji]
    · by_cases hji : j = i
      · subst hji
        simp [hjL, cellUpdate, decodeStep, Function.update_apply]
      · simp [hjL, hji, decodeStep, Function.update_apply]

theorem decodeFrame_apply (rawData : List Nat) (frame : Fin 768 → ℚ)
    (i : Fin 768) :
    decodeFrame rawData frame i = cellUpdate rawData frame i := by
  rw [decodeFrame, foldl_decodeStep_apply]
  simp [List.mem_finRange]

/-- Pixel temperatures only look at bytes 0..1535 of the buffer. -/
theorem pixelTemp_eq_of_take_eq {r1 r2 : List Nat}
    (h : r1.take 1536 = r2.take 1536) {i : Nat} (hi : i < 768) :
    pixelTemp r1 i = pixelTemp r2 i := by
  have hgd : ∀ m, m < 1536 → r1.getD m 0 = r2.getD m 0 := by
    intro m hm
    have h1 : (r1.take 1536)[m]? = r1[m]? := by
      rw [List.getElem?_take]; exact if_pos hm
    have h2 : (r2.take 1536)[m]? = r2[m]? := by
      rw [List.getElem?_take]; exact if_pos hm
    simp [List.getD, ← h1, ← h2, h]
  unfold pixelTemp pixelRaw
  rw [hgd (i * 2) (by omega), hgd (i * 2 + 1) (by omega)]

theorem decodeFrame_eq_of_take_eq {r1 r2 : List Nat}
    (h : r1.take 1536 = r2.take 1536) (frame : Fin 768 → ℚ) :
    decodeFrame r1 frame = decodeFrame r2 frame := by
  funext j
  rw [decodeFrame_apply, decodeFrame_apply]
  unfold cellUpdate
  rw [pixelTemp_eq_of_take_eq h j.isLt]

/-! ### Helper lemmas: findHeader -/

theorem findHeader_cons₄ (b0 b1 b2 b3 : Nat) (rest : List Nat) :
    findHeader (b0 :: b1 :: b2 :: b3 :: rest) =
      if b0 = 0x5A then
        if b1 = 0x5A then
          if b2 = 0x02 then
            if b3 = 0x06 then some rest
            else findHeader rest
          else findHeader (b3 :: rest)
        else findHeader (b2 :: b3 :: rest)
      else findHeader (b1 :: b2 :: b3 :: rest) := by
  rw [findHeader]

/-- A candidate that matches 5A 5A 02 but fails the fourth comparison
consumes all four bytes, the mismatching byte included. -/
theorem findHeader_mismatch4 {b3 : Nat} (h : b3 ≠ 0x06) (rest : List Nat) :
    findHeader (0x5A :: 0x5A :: 0x02 :: b3 :: rest) = findHeader rest := by
  rw [findHeader_cons₄, if_pos rfl, if_pos rfl, if_pos rfl, if_neg h]

/-- A candidate that matches 5A but fails the second comparison
consumes both bytes. -/
theorem findHeader_mismatch2 {b1 : Nat} (h : b1 ≠ 0x5A) (b2 b3 : Nat)
    (rest : List Nat) :
    findHeader (0x5A :: b1 :: b2 :: b3 :: rest) = findHeader (b2 :: b3 :: rest) := by
  rw [findHeader_cons₄, if_pos rfl, if_neg h]

/-- A full header at the front of the stream matches and leaves exactly
the following bytes. -/
theorem findHeader_match (rest : List Nat) :
    findHeader (0x5A :: 0x5A :: 0x02 :: 0x06 :: rest) = some rest := by
  rw [findHeader_cons₄, if_pos rfl, if_pos rfl, if_pos rfl, if_pos rfl]

/-- A byte that fails the first comparison is consumed and the search
continues with the remaining bytes (as long as 4 bytes are available). -/
theorem findHeader_cons_ne {b : Nat} (hb : b ≠ 0x5A) {l : List Nat}
    (hl : 3 ≤ l.length) : findHeader (b :: l) = findHeader l := by
  rcases l with _ | ⟨b1, _ | ⟨b2, _ | ⟨b3, rest⟩⟩⟩
  · simp at hl
  · simp at hl
  · simp at hl
  · rw [findHeader_cons₄, if_neg hb]

/-- A stream containing no 0x5A byte at all never matches. -/
theorem findHeader_none_of_no5A :
    ∀ (l : List Nat), (∀ b ∈ l, b ≠ 0x5A) → findHeader l = none
  | [], _ => rfl
  | [_], _ => rfl
  | [_, _], _ => rfl
  | [_, _, _], _ => rfl
  | b0 :: b1 :: b2 :: b3 :: rest, h => by
    have h0 : b0 ≠ 0x5A := h b0 (by simp)
    rw [findHeader_cons₄, if_neg h0]
    exact findHeader_none_of_no5A (b1 :: b2 :: b3 :: rest)
      (fun b hb => h b (List.mem_cons_of_mem _ hb))

/-- A header preceded only by bytes that are not 0x5A is always found,
whatever follows it. -/
theorem findHeader_append_of_no5A :
    ∀ (pre : List Nat), (∀ b ∈ pre, b ≠ 0x5A) →
      ∀ post : List Nat,
        findHeader (pre ++ 0x5A :: 0x5A :: 0x02 :: 0x06 :: post) = some post
  | [], _, post => by rw [List.nil_append, findHeader_cons₄]; simp
  | b :: pre, h, post => by
    have hb : b ≠ 0x5A := h b (by simp)
    have hl : 3 ≤ (pre ++ 0x5A :: 0x5A :: 0x02 :: 0x06 :: post).length := by
      simp; omega
    rw [List.cons_append, findHeader_cons_ne hb hl]
    exact findHeader_append_of_no5A pre
      (fun x hx => h x (List.mem_cons_of_mem _ hx)) post

/-! ### Helper lemmas: the timed synchronisation loop -/

theorem syncStep_of_no5A {buf : List Nat} (h : ∀ b ∈ buf, b ≠ 0x5A) :
    (syncStep buf).1 = false ∧ ∀ b ∈ (syncStep buf).2, b ≠ 0x5A := by
  rcases buf with _ | ⟨b0, _ | ⟨b1, _ | ⟨b2, _ | ⟨b3, rest⟩⟩⟩⟩
  · exact ⟨rfl, by simp [syncStep]⟩
  · exact ⟨rfl, h⟩
  · exact ⟨rfl, h⟩
  · exact ⟨rfl, h⟩
  · have h0 : b0 ≠ 0x5A := h b0 (by simp)
    rw [syncStep]
    rw [if_neg h0]
    exact ⟨rfl, fun b hb => h b (List.mem_cons_of_mem _ hb)⟩

/-- As soon as some clock reading at or past iteration n reaches the
deadline, the loop cannot run out of fuel covering those iterations:
a synchronisation attempt always terminates. -/
theorem syncLoop_ne_outOfFuel (millisAt : Nat → Nat) (arrive : Nat → List Nat)
    (start deadline : Nat) :
    ∀ (fuel n : Nat) (buf : List Nat),
      (∃ j, j < fuel ∧ deadline ≤ millisAt (n + j) - start) →
      syncLoop millisAt arrive start deadline fuel n buf ≠ .outOfFuel := by
  intro fuel
  induction fuel with
  | zero =>
    rintro n buf ⟨j, hj, _⟩
    omega
  | succ fuel ih =>
    rintro n buf ⟨j, hj, hd⟩
    rw [syncLoop]
    by_cases hc : millisAt n - start < deadline
    · rw [if_pos hc]
      have hj0 : j ≠ 0 := by
        rintro rfl
        rw [Nat.add_zero] at hd
        omega
      have hrec : ∃ j, j < fuel ∧ deadline ≤ millisAt (n + 1 + j) - start :=
        ⟨j - 1, by omega, by
          have : n + 1 + (j - 1) = n + j := by omega
          rw [this]; exact hd⟩
      by_cases hlen : 4 ≤ (buf ++ arrive n).length
      · rw [if_pos hlen]
        rcases hs : syncStep (buf ++ arrive n) with ⟨b, rest⟩
        cases b
        · exact ih (n + 1) rest hrec
        · simp
      · rw [if_neg hlen]
        exact ih (n + 1) (buf ++ arrive n) hrec
    · rw [if_neg hc]
      simp

/-- If neither the initial buffer nor any arrival ever contains a
0x5A byte (the source never yields the expected header bytes), the
attempt returns HeaderTimeout once the clock reaches the deadline. -/
theorem syncLoop_headerTimeout_of_no5A (millisAt : Nat → Nat)
    (arrive : Nat → List Nat) (start deadline : Nat)
    (hq : ∀ n, ∀ b ∈ arrive n, b ≠ 0x5A) :
    ∀ (fuel n : Nat) (buf : List Nat), (∀ b ∈ buf, b ≠ 0x5A) →
      (∃ j, j < fuel ∧ deadline ≤ millisAt (n + j) - start) →
      syncLoop millisAt arrive start deadline fuel n buf = .headerTimeout := by
  intro fuel
  induction fuel with
  | zero =>
    rintro n buf _ ⟨j, hj, _⟩
    omega
  | succ fuel ih =>
    rintro n buf hbuf ⟨j, hj, hd⟩
    rw [syncLoop]
    by_cases hc : millisAt n - start < deadline
    · rw [if_pos hc]
      have hbuf1 : ∀ b ∈ buf ++ arrive n, b ≠ 0x5A := by
        intro b hb
        rcases List.mem_append.mp hb with hb | hb
        · exact hbuf b hb
        · exact hq n b hb
      have hj0 : j ≠ 0 := by
        rintro rfl
        rw [Nat.add_zero] at hd
        omega
      have hrec : ∃ j, j < fuel ∧ deadline ≤ millisAt (n + 1 + j) - start :=
        ⟨j - 1, by omega, by
          have : n + 1 + (j - 1) = n + j := by omega
          rw [this]; exact hd⟩
      obtain ⟨hfalse, hrest⟩ := syncStep_of_no5A hbuf1
      by_cases hlen : 4 ≤ (buf ++ arrive n).length
      · rw [if_pos hlen]
        rcases hs : syncStep (buf ++ arrive n) with ⟨b, rest⟩
        rw [hs] at hfalse hrest
        cases b
        · exact ih (n + 1) rest hrest hrec
        · simp at hfalse
      · rw [if_neg hlen]
        exact ih (n + 1) (buf ++ arrive n) hbuf1 hrec
    · rw [if_neg hc]

/-! ### Small list helpers -/

theorem take_append_of_length_eq {α : Type} (l1 l2 : List α) (n : Nat)
    (h : l1.length = n) : (l1 ++ l2).take n = l1 := by
  subst h
  exact List.take_left l1 l2

theorem decodeAndShow_ta (rawData : List Nat) (frame : Fin 768 → ℚ) :
    (decodeAndShow rawData frame).ta =
      (toInt16 (rawData.getD 1536 0) (rawData.getD 1537 0) : ℚ) / 100 := rfl

theorem serializeGrid_length (ser : ℚ → List Nat) (frame : Fin 768 → ℚ)
    (hser : ∀ q, (ser q).length = 4) :
    (serializeGrid ser frame).length = 3072 := by
  unfold serializeGrid
  rw [List.length_flatMap]
  have h : (List.finRange 768).map (List.length ∘ fun i => ser (frame i)) =
      (List.finRange 768).map (fun _ => (4 : Nat)) :=
    List.map_congr_left (fun i _ => hser (frame i))
  rw [h, List.map_const', List.length_finRange, List.sum_replicate]
  norm_num

/-! ### Claim theorems -/

/-- C2 (confirmed): for every 1540-byte frame buffer and pixel index i,
the decoder reconstructs the signed 16-bit little-endian value
r = bytes(2i+1) shifted left 8 or-ed with bytes(2i); when r / 100 lies
strictly inside (-40, 300) cell i of the resulting grid is exactly
r / 100, and when r / 100 lies outside that open interval cell i keeps
its prior value unchanged. -/
theorem C2_decode_pixel (rawData : List Nat) (frame : Fin 768 → ℚ) (i : Fin 768) :
    (-40 < (pixelRaw rawData i.val : ℚ) / 100 ∧ (pixelRaw rawData i.val : ℚ) / 100 < 300 →
        decodeFrame rawData frame i = (pixelRaw rawData i.val : ℚ) / 100) ∧
    (¬(-40 < (pixelRaw rawData i.val : ℚ) / 100 ∧ (pixelRaw rawData i.val : ℚ) / 100 < 300) →
        decodeFrame rawData frame i = frame i) := by
  constructor <;> intro h <;> rw [decodeFrame_apply] <;>
    simp only [cellUpdate, pixelTemp] <;> simp [h]

theorem C2_witness :
    decodeFrame (List.replicate 1540 0) initFrame 0 =
      (pixelRaw (List.replicate 1540 0) 0 : ℚ) / 100 ∧
    decodeFrame (0x60 :: 0xF0 :: List.replicate 1538 0) initFrame 0 = initFrame 0 := by
  constructor
  · refine (C2_decode_pixel (List.replicate 1540 0) initFrame 0).1 ?_
    have h0 : pixelRaw (List.replicate 1540 0) (0 : Fin 768).val = 0 := by decide
    rw [h0]
    norm_num
  · refine (C2_decode_pixel (0x60 :: 0xF0 :: List.replicate 1538 0) initFrame 0).2 ?_
    have h0 : pixelRaw (0x60 :: 0xF0 :: List.replicate 1538 0) (0 : Fin 768).val = -4000 := by
      decide
    rw [h0]
    norm_num

/-- C3 (corrected, counterexample): the claim says a raw reading of
exactly -4000 (that is -40.00 Celsius) is in range and is written into
the grid.  The code filters with the strict comparison t > -40.0, so a
-4000 reading at pixel 0 leaves the prior cell value 0 in place; the
cell does not become -40. -/
theorem C3_counterexample :
    pixelRaw (0x60 :: 0xF0 :: List.replicate 1538 0) 0 = -4000 ∧
    decodeFrame (0x60 :: 0xF0 :: List.replicate 1538 0) initFrame 0 = 0 ∧
    (0 : ℚ) ≠ -40 := by
  have h0 : pixelRaw (0x60 :: 0xF0 :: List.replicate 1538 0) (0 : Fin 768).val = -4000 := by
    decide
  refine ⟨h0, ?_, by norm_num⟩
  rw [decodeFrame_apply]
  unfold cellUpdate pixelTemp
  rw [h0]
  norm_num [initFrame]

/-- C3 (amended): grid invariant with the open range (-40, 300):
each decode leaves every cell either equal to the newly decoded value
(exactly when that value lies strictly inside (-40, 300)) or equal to
its previous value; in particular a -40.00 reading is retained, not
written.  A grid whose cells all lie in (-40, 300) stays that way, and
starting from the all-zero grid of setup(), after any sequence of
decodes every cell lies in (-40, 300): the decoder never stores an
out-of-range value. -/
theorem C3_grid_invariant :
    (∀ (rawData : List Nat) (frame : Fin 768 → ℚ) (i : Fin 768),
        decodeFrame rawData frame i =
          if -40 < pixelTemp rawData i.val ∧ pixelTemp rawData i.val < 300
          then pixelTemp rawData i.val else frame i) ∧
    (∀ (rawData : List Nat) (frame : Fin 768 → ℚ),
        (∀ i : Fin 768, -40 < frame i ∧ frame i < 300) →
        ∀ i : Fin 768, -40 < decodeFrame rawData frame i ∧
          decodeFrame rawData frame i < 300) ∧
    (∀ (raws : List (List Nat)) (i : Fin 768),
        -40 < (raws.foldl (fun f r => decodeFrame r f) initFrame) i ∧
        (raws.foldl (fun f r => decodeFrame r f) initFrame) i < 300) := by
  have happly : ∀ (rawData : List Nat) (frame : Fin 768 → ℚ) (i : Fin 768),
      decodeFrame rawData frame i =
        if -40 < pixelTemp rawData i.val ∧ pixelTemp rawData i.val < 300
        then pixelTemp rawData i.val else frame i := by
    intro rawData frame i
    rw [decodeFrame_apply]
    rfl
  have hstep : ∀ (rawData : List Nat) (frame : Fin 768 → ℚ),
      (∀ i : Fin 768, -40 < frame i ∧ frame i < 300) →
      ∀ i : Fin 768, -40 < decodeFrame rawData frame i ∧
        decodeFrame rawData frame i < 300 := by
    intro rawData frame hf i
    rw [happly]
    by_cases hc : -40 < pixelTemp rawData i.val ∧ pixelTemp rawData i.val < 300
    · rw [if_pos hc]; exact hc
    · rw [if_neg hc]; exact hf i
  refine ⟨happly, hstep, ?_⟩
  have hfold : ∀ (raws : List (List Nat)) (frame : Fin 768 → ℚ),
      (∀ i : Fin 768, -40 < frame i ∧ frame i < 300) →
      ∀ i : Fin 768,
        -40 < (raws.foldl (fun f r => decodeFrame r f) frame) i ∧
        (raws.foldl (fun f r => decodeFrame r f) frame) i < 300 := by
    intro raws
    induction raws with
    | nil =>
      intro frame hf i
      simp only [List.foldl_nil]
      exact hf i
    | cons r raws ih =>
      intro frame hf i
      simp only [List.foldl_cons]
      exact ih (decodeFrame r frame) (hstep r frame hf) i
  intro raws i
  exact hfold raws initFrame (fun _ => by constructor <;> norm_num [initFrame]) i

theorem C3_witness :
    -40 < decodeFrame (List.replicate 1540 0) initFrame 5 ∧
    decodeFrame (List.replicate 1540 0) initFrame 5 < 300 :=
  C3_grid_invariant.2.1 (List.replicate 1540 0) initFrame
    (fun _ => by constructor <;> norm_num [initFrame]) 5

/-- C4 (corrected, counterexample): the claim says every pipeline
variant decodes the ambient temperature from bytes 1536/1537.  The
WiFi-serving decodeFrame does not: two 1540-byte frames whose ambient
bytes decode to the different values 0 and 100 degrees produce exactly
the same decodeFrame result, so the decode step of that variant does not
produce the ambient temperature at all.  Only decodeAndShow of the
standalone variant does. -/
theorem C4_counterexample :
    decodeFrame (List.replicate 1540 0) initFrame =
      decodeFrame (List.replicate 1536 0 ++ [0x10, 0x27, 0, 0]) initFrame ∧
    (decodeAndShow (List.replicate 1540 0) initFrame).ta = 0 ∧
    (decodeAndShow (List.replicate 1536 0 ++ [0x10, 0x27, 0, 0]) initFrame).ta = 100 ∧
    (0 : ℚ) ≠ 100 := by
  refine ⟨?_, ?_, ?_, by norm_num⟩
  · refine decodeFrame_eq_of_take_eq ?_ initFrame
    rw [List.take_replicate, take_append_of_length_eq _ _ _ (List.length_replicate 1536 0)]
    norm_num
  · rw [decodeAndShow_ta]
    have h1 : (List.replicate 1540 (0:Nat)).getD 1536 0 = 0 := by decide
    have h2 : (List.replicate 1540 (0:Nat)).getD 1537 0 = 0 := by decide
    rw [h1, h2]
    norm_num [toInt16]
  · rw [decodeAndShow_ta]
    have hlen : (List.replicate 1536 (0:Nat)).length ≤ 1536 := by
      rw [List.length_replicate]
    have hlen' : (List.replicate 1536 (0:Nat)).length ≤ 1537 := by
      rw [List.length_replicate]
      omega
    rw [List.getD_append_right _ _ _ _ hlen, List.getD_append_right _ _ _ _ hlen',
      List.length_replicate]
    norm_num [toInt16]

/-- C4 (amended): the ambient temperature is produced only by the
standalone variant: decodeAndShow yields exactly the signed 16-bit
little-endian value bytes(1537) shifted left 8 or-ed with bytes(1536),
divided by 100, with no range check of any kind; the WiFi-serving
decodeFrame of the WiFi variant ignores every byte past index 1535, so its
result is the grid alone. -/
theorem C4_ambient :
    (∀ (rawData : List Nat) (frame : Fin 768 → ℚ),
        (decodeAndShow rawData frame).ta =
          (toInt16 (rawData.getD 1536 0) (rawData.getD 1537 0) : ℚ) / 100) ∧
    (∀ (r1 r2 : List Nat) (frame : Fin 768 → ℚ), r1.take 1536 = r2.take 1536 →
        decodeFrame r1 frame = decodeFrame r2 frame) :=
  ⟨fun _ _ => rfl, fun _ _ frame h => decodeFrame_eq_of_take_eq h frame⟩

theorem C4_witness :
    (decodeAndShow (List.replicate 1540 3) initFrame).ta =
      (toInt16 ((List.replicate 1540 (3:Nat)).getD 1536 0)
        ((List.replicate 1540 (3:Nat)).getD 1537 0) : ℚ) / 100 ∧
    decodeFrame (List.replicate 1540 0) initFrame =
      decodeFrame (List.replicate 1536 0 ++ [9, 9, 9, 9]) initFrame := by
  constructor
  · exact C4_ambient.1 (List.replicate 1540 3) initFrame
  · refine C4_ambient.2 _ _ initFrame ?_
    rw [List.take_replicate, take_append_of_length_eq _ _ _ (List.length_replicate 1536 0)]
    norm_num

/-- C1 (corrected, counterexample): the claim says a mismatching byte
is retained as the first byte of a new candidate and that any stream
containing the header followed by 1540 bytes is synchronised even when
a failed candidate overlaps the header.  In the stream below the
candidate 5A 5A 02 5A fails at its fourth byte; the code consumes all
four bytes, including the mismatching 5A that starts the real header,
and then runs past the rest of the header, so the search never
matches although the stream contains 5A 5A 02 06 followed by 1540
bytes. -/
theorem C1_counterexample :
    (∃ pre post : List Nat,
        [0x5A, 0x5A, 0x02, 0x5A, 0x5A, 0x02, 0x06] ++ List.replicate 1540 0 =
          pre ++ [0x5A, 0x5A, 0x02, 0x06] ++ post ∧ 1540 ≤ post.length) ∧
    findHeader ([0x5A, 0x5A, 0x02, 0x5A, 0x5A, 0x02, 0x06] ++ List.replicate 1540 0) =
      none := by
  constructor
  · refine ⟨[0x5A, 0x5A, 0x02], List.replicate 1540 0, rfl, ?_⟩
    rw [List.length_replicate]
  · have e : (List.replicate 1540 (0:Nat)) = 0 :: 0 :: 0 :: List.replicate 1537 0 := rfl
    show findHeader
        (0x5A :: 0x5A :: 0x02 :: 0x5A :: 0x5A :: 0x02 :: 0x06 :: List.replicate 1540 0) = none
    rw [e, findHeader_mismatch4 (by norm_num), findHeader_mismatch2 (by norm_num),
      findHeader_cons_ne (by norm_num)
        (by simp only [List.length_cons, List.length_replicate]; omega)]
    exact findHeader_none_of_no5A _ (by
      intro b hb
      simp only [List.mem_cons] at hb
      rcases hb with rfl | rfl | rfl | h
      · norm_num
      · norm_num
      · norm_num
      · rw [List.eq_of_mem_replicate h]
        norm_num)

/-- C1 (amended): when a header candidate fails, the bytes read for it,
the mismatching byte included, are consumed and discarded, and the
search resumes at the next unread byte.  Consequently a valid header
is still found whenever no byte of it was consumed by a failed
candidate: in particular after any prefix free of 0x5A bytes, and in
the false-start stream 5A 5A 02 99 5A 5A 02 06 of the spec, where the
failed candidate ends exactly at the header boundary.  A header
overlapping a failed candidate can be missed. -/
theorem C1_sync_recovery :
    (∀ pre : List Nat, (∀ b ∈ pre, b ≠ 0x5A) →
        ∀ post : List Nat,
          findHeader (pre ++ [0x5A, 0x5A, 0x02, 0x06] ++ post) = some post) ∧
    (∀ post : List Nat,
        findHeader ([0x5A, 0x5A, 0x02, 0x99] ++ [0x5A, 0x5A, 0x02, 0x06] ++ post) =
          some post) := by
  constructor
  · intro pre hpre post
    simp only [List.append_assoc, List.cons_append, List.nil_append]
    exact findHeader_append_of_no5A pre hpre post
  · intro post
    show findHeader
        (0x5A :: 0x5A :: 0x02 :: 0x99 :: 0x5A :: 0x5A :: 0x02 :: 0x06 :: post) = some post
    rw [findHeader_mismatch4 (by norm_num), findHeader_match]

theorem C1_witness :
    findHeader ([0x00] ++ [0x5A, 0x5A, 0x02, 0x06] ++ []) = some [] ∧
    findHeader ([0x5A, 0x5A, 0x02, 0x99] ++ [0x5A, 0x5A, 0x02, 0x06] ++ [0x07]) =
      some [0x07] := by
  constructor
  · refine C1_sync_recovery.1 [0x00] ?_ []
    intro b hb
    rw [List.eq_of_mem_singleton hb]
    norm_num
  · exact C1_sync_recovery.2 [0x07]

/-- C5 (confirmed): when the header was matched but fewer than 1540
payload bytes arrive before the read stalls, the cycle outcome is
ShortRead n with n the number of bytes actually received, no decode is
attempted (the grid is returned entirely unmodified) and nothing is
published. -/
theorem C5_short_read (ser : ℚ → List Nat) (buffered arrivals : List Nat)
    (frame : Fin 768 → ℚ) (subs : List Nat) (rest : List Nat)
    (hsync : findHeader arrivals = some rest) (hshort : rest.length < 1540) :
    (requestSensorData ser buffered arrivals frame subs).outcome =
      .shortRead rest.length ∧
    (requestSensorData ser buffered arrivals frame subs).frame = frame ∧
    (requestSensorData ser buffered arrivals frame subs).sent = [] := by
  have hmin : min rest.length 1540 = rest.length := by omega
  have hne : ¬ (min rest.length 1540 = 1540) := by omega
  unfold requestSensorData
  rw [hsync]
  dsimp only
  rw [if_neg hne, hmin]
  exact ⟨rfl, rfl, rfl⟩

theorem C5_witness :
    (requestSensorData (fun _ => []) []
        ([0x5A, 0x5A, 0x02, 0x06] ++ List.replicate 1000 7) initFrame []).outcome =
      .shortRead 1000 ∧
    (requestSensorData (fun _ => []) []
        ([0x5A, 0x5A, 0x02, 0x06] ++ List.replicate 1000 7) initFrame []).frame =
      initFrame ∧
    (requestSensorData (fun _ => []) []
        ([0x5A, 0x5A, 0x02, 0x06] ++ List.replicate 1000 7) initFrame []).sent = [] := by
  have hsync : findHeader ([0x5A, 0x5A, 0x02, 0x06] ++ List.replicate 1000 7) =
      some (List.replicate 1000 7) := findHeader_match _
  have h := C5_short_read (fun _ => []) []
    ([0x5A, 0x5A, 0x02, 0x06] ++ List.replicate 1000 7) initFrame []
    (List.replicate 1000 7) hsync (by rw [List.length_replicate]; omega)
  rw [List.length_replicate] at h
  exact h

/-- C6 (confirmed): every poll cycle first discards all stale buffered
bytes (the cycle result does not depend on them in any way) and writes
exactly the 4 query-command bytes A5 35 01 DB to the sensor, and
nothing else; this holds unconditionally, hence also in a cycle
immediately after a HeaderTimeout or ShortRead outcome. -/
theorem C6_drain_and_query (ser : ℚ → List Nat) (b1 b2 arrivals : List Nat)
    (frame : Fin 768 → ℚ) (subs : List Nat) :
    (requestSensorData ser b1 arrivals frame subs).written = askData ∧
    askData = [0xA5, 0x35, 0x01, 0xDB] ∧
    requestSensorData ser b1 arrivals frame subs =
      requestSensorData ser b2 arrivals frame subs := by
  refine ⟨?_, rfl, rfl⟩
  unfold requestSensorData
  cases findHeader arrivals with
  | none => rfl
  | some rest =>
    simp only
    split
    · rfl
    · rfl

/-- C7 (confirmed): on a successfully decoded cycle the publisher
sends one identical binary message to every currently connected
subscriber, namely the 768 grid cells serialised in index order
(row-major 32 by 24); with 4 bytes per cell the message is exactly
3072 bytes.  With no subscribers connected nothing is sent, but the
decode still runs and the grid is still updated. -/
theorem C7_publish (ser : ℚ → List Nat) (buffered arrivals : List Nat)
    (frame : Fin 768 → ℚ) (subs : List Nat) (rest : List Nat)
    (hser : ∀ q, (ser q).length = 4)
    (hsync : findHeader arrivals = some rest) (hlen : 1540 ≤ rest.length) :
    (requestSensorData ser buffered arrivals frame subs).outcome = .success ∧
    (requestSensorData ser buffered arrivals frame subs).frame =
      decodeFrame (rest.take 1540) frame ∧
    (requestSensorData ser buffered arrivals frame subs).sent =
      subs.map (fun _ => serializeGrid ser (decodeFrame (rest.take 1540) frame)) ∧
    (serializeGrid ser (decodeFrame (rest.take 1540) frame)).length = 3072 ∧
    (subs = [] → (requestSensorData ser buffered arrivals frame subs).sent = []) := by
  have h1540 : min rest.length 1540 = 1540 := by omega
  unfold requestSensorData
  rw [hsync]
  dsimp only
  rw [if_pos h1540]
  refine ⟨?_, ?_, ?_, ?_, ?_⟩
  · dsimp only
  · dsimp only
  · dsimp only
  · exact serializeGrid_length ser _ hser
  · rintro rfl
    dsimp only
    rw [List.map_nil]

theorem C7_witness :
    (requestSensorData (fun _ => [0, 0, 0, 0]) []
        ([0x5A, 0x5A, 0x02, 0x06] ++ List.replicate 1540 0) initFrame [3]).outcome =
      .success ∧
    (serializeGrid (fun _ => [0, 0, 0, 0])
        (decodeFrame ((List.replicate 1540 (0 : Nat)).take 1540) initFrame)).length =
      3072 := by
  have h := C7_publish (fun _ => [0, 0, 0, 0]) []
    ([0x5A, 0x5A, 0x02, 0x06] ++ List.replicate 1540 0) initFrame [3]
    (List.replicate 1540 0) (fun _ => rfl) (findHeader_match _)
    (by rw [List.length_replicate])
  exact ⟨h.1, h.2.2.2.1⟩

/-- C8 (corrected, counterexample): the claim says a poll cycle is
triggered exactly when the elapsed time since the last poll is greater
than or equal to the interval.  The code tests
millis() - lastFetch > 1000 strictly: with lastFetch 0 and now 1000
the elapsed time equals the interval, yet no cycle is triggered and
the timestamp is not reset. -/
theorem C8_counterexample :
    pollInterval_feb27a ≤ 1000 - 0 ∧
    loopStep (fun _ => []) 0 1000 [] [] initFrame [] = (0, initFrame, none) := by
  constructor
  · norm_num [pollInterval_feb27a]
  · unfold loopStep
    rw [if_neg (by norm_num [pollInterval_feb27a])]

/-- C8 (amended): in the WiFi-serving variant a cycle is triggered
exactly when the elapsed time is strictly greater than the 1000 ms
interval, and on a trigger the last-poll timestamp becomes the current
time no matter how the triggered cycle turns out; otherwise timestamp
and grid are untouched.  The standalone variant has no timestamp test
at all: every loop iteration runs one cycle unconditionally and then
waits a fixed 5000 ms. -/
theorem C8_scheduler (ser : ℚ → List Nat) (lastFetch now : Nat)
    (buffered arrivals : List Nat) (frame : Fin 768 → ℚ) (subs : List Nat) :
    ((loopStep ser lastFetch now buffered arrivals frame subs).2.2 ≠ none ↔
        pollInterval_feb27a < now - lastFetch) ∧
    (pollInterval_feb27a < now - lastFetch →
        loopStep ser lastFetch now buffered arrivals frame subs =
          (now, (requestSensorData ser buffered arrivals frame subs).frame,
            some (requestSensorData ser buffered arrivals frame subs))) ∧
    (¬ pollInterval_feb27a < now - lastFetch →
        loopStep ser lastFetch now buffered arrivals frame subs =
          (lastFetch, frame, none)) ∧
    pollInterval_feb27a = 1000 ∧
    (∀ (b a : List Nat) (f : Fin 768 → ℚ),
        (standaloneLoopIter b a f).2 = standaloneDelay_feb23a) ∧
    standaloneDelay_feb23a = 5000 := by
  by_cases h : pollInterval_feb27a < now - lastFetch
  · refine ⟨?_, fun _ => ?_, fun hc => absurd h hc, rfl, fun _ _ _ => rfl, rfl⟩
    · unfold loopStep
      rw [if_pos h]
      simp [h]
    · unfold loopStep
      rw [if_pos h]
  · refine ⟨?_, fun hc => absurd hc h, fun _ => ?_, rfl, fun _ _ _ => rfl, rfl⟩
    · unfold loopStep
      rw [if_neg h]
      simp [h]
    · unfold loopStep
      rw [if_neg h]

theorem C8_witness :
    (loopStep (fun _ => []) 0 1001 [] [] initFrame []).1 = 1001 ∧
    (loopStep (fun _ => []) 0 500 [] [] initFrame []).2.2 = none := by
  have h1 := (C8_scheduler (fun _ => []) 0 1001 [] [] initFrame []).2.1
    (by norm_num [pollInterval_feb27a])
  have h2 := (C8_scheduler (fun _ => []) 0 500 [] [] initFrame []).2.2.1
    (by norm_num [pollInterval_feb27a])
  constructor
  · rw [h1]
  · rw [h2]

/-- C9 (confirmed): whatever the byte source does, a synchronisation
attempt cannot run past the first clock reading at or beyond its
deadline, so it always terminates within the deadline (it never
blocks); and if the source never yields the expected header bytes (no
0x5A ever arrives and none is buffered after the drain), the attempt
returns exactly HeaderTimeout.  The configured deadlines are 500 ms in
the continuous WiFi-serving variant and 1000 ms in the standalone
variant. -/
theorem C9_deadline (millisAt : Nat → Nat) (arrive : Nat → List Nat)
    (start deadline fuel n : Nat) (buf : List Nat)
    (hexp : ∃ j, j < fuel ∧ deadline ≤ millisAt (n + j) - start) :
    syncLoop millisAt arrive start deadline fuel n buf ≠ .outOfFuel ∧
    ((∀ m, ∀ b ∈ arrive m, b ≠ 0x5A) → (∀ b ∈ buf, b ≠ 0x5A) →
        syncLoop millisAt arrive start deadline fuel n buf = .headerTimeout) ∧
    syncDeadline_feb27a = 500 ∧ syncDeadline_feb23a = 1000 :=
  ⟨syncLoop_ne_outOfFuel millisAt arrive start deadline fuel n buf hexp,
   fun hq hb =>
     syncLoop_headerTimeout_of_no5A millisAt arrive start deadline hq fuel n buf hb hexp,
   rfl, rfl⟩

theorem C9_witness :
    syncLoop (fun m => m) (fun _ => []) 0 syncDeadline_feb27a 501 0 [] =
      .headerTimeout := by
  have h := C9_deadline (fun m => m) (fun _ => []) 0 syncDeadline_feb27a 501 0 []
    ⟨500, by norm_num, by norm_num [syncDeadline_feb27a]⟩
  refine h.2.1 ?_ ?_
  · intro m b hb
    exact absurd hb (List.not_mem_nil b)
  · intro b hb
    exact absurd hb (List.not_mem_nil b)

/-- C10 (confirmed): the published output depends on no byte of the
raw frame past index 1535: two 1540-byte frames that agree on bytes
0 to 1535 decode to identical grids from the same prior grid, and the
whole cycle (outcome, grid and every published payload) is identical. -/
theorem C10_noninterference (ser : ℚ → List Nat) (buffered : List Nat)
    (frame : Fin 768 → ℚ) (subs : List Nat) (r1 r2 : List Nat)
    (hagree : r1.take 1536 = r2.take 1536)
    (h1 : r1.length = 1540) (h2 : r2.length = 1540) :
    decodeFrame r1 frame = decodeFrame r2 frame ∧
    requestSensorData ser buffered ([0x5A, 0x5A, 0x02, 0x06] ++ r1) frame subs =
      requestSensorData ser buffered ([0x5A, 0x5A, 0x02, 0x06] ++ r2) frame subs := by
  have hdec : decodeFrame r1 frame = decodeFrame r2 frame :=
    decodeFrame_eq_of_take_eq hagree frame
  refine ⟨hdec, ?_⟩
  have hs1 : findHeader ([0x5A, 0x5A, 0x02, 0x06] ++ r1) = some r1 := findHeader_match r1
  have hs2 : findHeader ([0x5A, 0x5A, 0x02, 0x06] ++ r2) = some r2 := findHeader_match r2
  have hm1 : min r1.length 1540 = 1540 := by omega
  have hm2 : min r2.length 1540 = 1540 := by omega
  unfold requestSensorData
  rw [hs1, hs2]
  dsimp only
  rw [if_pos hm1, if_pos hm2,
    List.take_of_length_le (by omega), List.take_of_length_le (by omega), hdec]

theorem C10_witness :
    decodeFrame (List.replicate 1540 0) initFrame =
      decodeFrame (List.replicate 1536 0 ++ [9, 9, 9, 9]) initFrame :=
  (C10_noninterference (fun _ => []) [] initFrame []
    (List.replicate 1540 0) (List.replicate 1536 0 ++ [9, 9, 9, 9])
    (by rw [List.take_replicate,
          take_append_of_length_eq _ _ _ (List.length_replicate 1536 0)]
        norm_num)
    (List.length_replicate 1540 0)
    (by rw [List.length_append, List.length_replicate]
        rfl)).1

end MLX90640
